import Mathlib

/-!
Verification development for the XylophoneChampion rhythm game.

The definitions below are a shallow embedding of the Python sources:

* `Note.try_hit`, `Note.check_missed`, `Note.is_active` embed
  `src/note.py` (class `Note`), with the judgment windows of that module.
* `ScoreState`, `register_hit`, `apply_judgment` embed the score/combo
  bookkeeping of `GameScene._register_hit` and `GameScene._press_lane`
  in `src/game.py`.
* `assignNotes` embeds the lane-assignment loop of `analyze_music` in
  `src/analyzer.py`.
* `analyze_music_cached` and `load_step` embed the cache-lookup path of
  `analyze_music` and the exception handling of `GameScene._load`.
* `press_lane` embeds `GameScene._press_lane`, with Python list-index
  assignment semantics made explicit (`listSet`).

Times and windows are modelled as rationals; the numeric comparisons the
theorems depend on have the same outcome as the source's binary floats at
every input used.
-/

-- ------------------------------------------------------------------
-- Constants from src/note.py and src/analyzer.py
-- ------------------------------------------------------------------

def NUM_LANES : ℕ := 4

def PERFECT_WINDOW : ℚ := 7/100

def GOOD_WINDOW : ℚ := 13/100

def POOR_WINDOW : ℚ := 1/5

def MIN_GAP_LANE : ℚ := 1/4

def MIN_GAP_GLOBAL : ℚ := 2/25

-- ------------------------------------------------------------------
-- Note state machine (src/note.py)
-- ------------------------------------------------------------------

/-- Judgment tiers used by `Note.judgment` and `JUDGMENT_POINTS`. -/
inductive Judgment
  | perfect
  | good
  | poor
  | miss
deriving DecidableEq, Repr

/-- Base points per judgment, from `JUDGMENT_POINTS` in src/note.py. -/
def JUDGMENT_POINTS : Judgment → ℕ
  | .perfect => 100
  | .good => 50
  | .poor => 15
  | .miss => 0

/-- A falling note: `lane`/`time` plus the mutable lifecycle fields of the
Python `Note` class. -/
structure Note where
  lane : ℕ
  time : ℚ
  hit : Bool
  missed : Bool
  judgment : Option Judgment
deriving DecidableEq, Repr

/-- `Note.__init__`: a fresh pending note. -/
def Note.make (lane : ℕ) (time : ℚ) : Note :=
  { lane := lane, time := time, hit := false, missed := false, judgment := none }

/-- `Note.try_hit`: returns the judgment (if any) and the updated note. -/
def Note.try_hit (n : Note) (current_time : ℚ) : Option Judgment × Note :=
  if n.hit || n.missed then (none, n)
  else
    let diff := |current_time - n.time|
    if diff ≤ PERFECT_WINDOW then
      (some .perfect, { n with hit := true, judgment := some .perfect })
    else if diff ≤ GOOD_WINDOW then
      (some .good, { n with hit := true, judgment := some .good })
    else if diff ≤ POOR_WINDOW then
      (some .poor, { n with hit := true, judgment := some .poor })
    else (none, n)

/-- `Note.check_missed`: returns whether the note was just marked missed,
and the updated note. -/
def Note.check_missed (n : Note) (current_time : ℚ) : Bool × Note :=
  if !n.hit && !n.missed then
    if n.time + POOR_WINDOW < current_time then
      (true, { n with missed := true, judgment := some .miss })
    else (false, n)
  else (false, n)

/-- `Note.is_active`. -/
def Note.is_active (n : Note) : Bool :=
  !n.hit && !n.missed

-- ------------------------------------------------------------------
-- Score/combo aggregation (src/game.py)
-- ------------------------------------------------------------------

/-- The score-related fields of `GameScene`. -/
structure ScoreState where
  score : ℕ
  combo : ℕ
  max_combo : ℕ
  perfect_count : ℕ
  good_count : ℕ
  miss_count : ℕ
  health : ℚ
deriving DecidableEq, Repr

/-- Initial score fields set in `GameScene.__init__`. -/
def initScore : ScoreState :=
  { score := 0, combo := 0, max_combo := 0, perfect_count := 0,
    good_count := 0, miss_count := 0, health := 100 }

/-- The multiplier computed in `GameScene._register_hit` (after the combo
increment): `min(4, 1 + self.combo // 10)`. -/
def hit_multiplier (s : ScoreState) : ℕ :=
  min 4 (1 + (s.combo + 1) / 10)

/-- `GameScene._register_hit` without the presentation-layer calls. -/
def register_hit (s : ScoreState) (judgment : Judgment) : ScoreState :=
  let combo := s.combo + 1
  let multiplier := min 4 (1 + combo / 10)
  { s with
    combo := combo,
    max_combo := max s.max_combo combo,
    score := s.score + JUDGMENT_POINTS judgment * multiplier,
    perfect_count :=
      if judgment = Judgment.perfect then s.perfect_count + 1 else s.perfect_count,
    good_count :=
      if judgment = Judgment.perfect then s.good_count else s.good_count + 1 }

/-- Lines 345-348 of src/game.py: `_register_hit` runs only when `try_hit`
returned a judgment. -/
def apply_judgment (s : ScoreState) (j : Option Judgment) : ScoreState :=
  match j with
  | some jj => register_hit s jj
  | none => s

/-- State after `k` consecutive perfect hits starting from a fresh run. -/
def hitSeq : ℕ → ScoreState
  | 0 => initScore
  | k + 1 => register_hit (hitSeq k) Judgment.perfect

-- ------------------------------------------------------------------
-- Basic sanity checks of the embedding
-- ------------------------------------------------------------------

example : (Note.make 0 10).try_hit (1003/100) = (some Judgment.perfect,
    { lane := 0, time := 10, hit := true, missed := false,
      judgment := some Judgment.perfect }) := by
  norm_num [Note.try_hit, Note.make, PERFECT_WINDOW, abs]

example : ((Note.make 0 10).check_missed (51/5)).1 = false := by
  norm_num [Note.check_missed, Note.make, POOR_WINDOW]

example : (hitSeq 2).score = 200 := by decide

example : hit_multiplier (hitSeq 9) = 2 := by decide

-- ------------------------------------------------------------------
-- Note lifecycle as a sequence of engine calls
-- ------------------------------------------------------------------

/-- One engine call on a note: a player press (`try_hit`) or a scheduler
miss check (`check_missed`). -/
inductive NoteOp
  | press (t : ℚ)
  | tick (t : ℚ)

/-- Apply one engine call, keeping only the note's state. -/
def Note.apply_op (n : Note) : NoteOp → Note
  | .press t => (n.try_hit t).2
  | .tick t => (n.check_missed t).2

/-- Run a sequence of engine calls. -/
def Note.run_ops (n : Note) (ops : List NoteOp) : Note :=
  ops.foldl Note.apply_op n

/-- The documented invariant of the `Note` class. -/
def Note.inv (n : Note) : Prop :=
  ¬(n.hit = true ∧ n.missed = true) ∧
    (n.judgment = none ↔ (n.hit = false ∧ n.missed = false))

theorem apply_op_frozen (n : Note) (op : NoteOp)
    (h : n.hit = true ∨ n.missed = true) : n.apply_op op = n := by
  have hb : (n.hit || n.missed) = true := by
    rcases h with h | h <;> simp [h]
  cases op with
  | press t => simp [Note.apply_op, Note.try_hit, hb]
  | tick t =>
    rcases h with h | h <;> simp [Note.apply_op, Note.check_missed, h]

theorem apply_op_inv (n : Note) (op : NoteOp) (h : n.inv) :
    (n.apply_op op).inv := by
  obtain ⟨h1, h2⟩ := h
  by_cases hres : n.hit = true ∨ n.missed = true
  · rw [apply_op_frozen n op hres]; exact ⟨h1, h2⟩
  · push_neg at hres
    obtain ⟨hh, hm⟩ := hres
    simp only [ne_eq, Bool.not_eq_true] at hh hm
    cases op with
    | press t =>
      simp only [Note.apply_op, Note.try_hit, hh, hm, Bool.or_self, if_false,
        Bool.false_or]
      split_ifs <;> simp [Note.inv, hh, hm, h2.mpr ⟨hh, hm⟩]
    | tick t =>
      simp only [Note.apply_op, Note.check_missed, hh, hm, Bool.not_false,
        Bool.and_self, if_true]
      split_ifs <;> simp [Note.inv, hh, hm, h2.mpr ⟨hh, hm⟩]

theorem run_ops_inv (n : Note) (ops : List NoteOp) (h : n.inv) :
    (n.run_ops ops).inv := by
  induction ops generalizing n with
  | nil => exact h
  | cons op rest ih => exact ih _ (apply_op_inv n op h)

theorem run_ops_frozen (n : Note) (ops : List NoteOp)
    (h : n.hit = true ∨ n.missed = true) : n.run_ops ops = n := by
  induction ops with
  | nil => rfl
  | cons op rest ih =>
    show (n.apply_op op).run_ops rest = n
    rw [apply_op_frozen n op h, ih]

theorem make_inv (lane : ℕ) (time : ℚ) : (Note.make lane time).inv := by
  simp [Note.inv, Note.make]

-- ------------------------------------------------------------------
-- Claim theorems: note state machine
-- ------------------------------------------------------------------

/-- C2: for a pending note with time `T` and outer window `POOR_WINDOW`
(the largest configured tolerance), `check_missed t` marks the note
missed exactly when `T + POOR_WINDOW < t`; for `t ≤ T + POOR_WINDOW` it
returns false and leaves the note untouched, and it is a no-op on an
already hit or missed note. -/
theorem c2_check_missed_iff (n : Note) (t : ℚ) :
    (n.hit = false → n.missed = false →
      ((((n.check_missed t).1 = true ∧ (n.check_missed t).2.missed = true) ↔
          n.time + POOR_WINDOW < t) ∧
        (t ≤ n.time + POOR_WINDOW → n.check_missed t = (false, n)))) ∧
    ((n.hit = true ∨ n.missed = true) → n.check_missed t = (false, n)) ∧
    PERFECT_WINDOW ≤ POOR_WINDOW ∧ GOOD_WINDOW ≤ POOR_WINDOW := by
  refine ⟨fun hh hm => ?_, fun hres => ?_, by norm_num [PERFECT_WINDOW, POOR_WINDOW],
    by norm_num [GOOD_WINDOW, POOR_WINDOW]⟩
  · simp only [Note.check_missed, hh, hm, Bool.not_false, Bool.and_self, if_true]
    constructor
    · split_ifs with hlt
      · simp [hlt]
      · simp [hlt, hm]
    · intro hle
      split_ifs with hlt
      · exact absurd hlt (not_lt.mpr hle)
      · rfl
  · rcases hres with h | h <;> simp [Note.check_missed, h]

/-- C2 witness: a pending note at time 10 queried at `t = 10 + POOR_WINDOW`
stays pending; queried strictly later it is missed. -/
theorem c2_witness :
    ((((Note.make 0 10).check_missed (51/5)).1 = true ∧
        ((Note.make 0 10).check_missed (51/5)).2.missed = true) ↔
      (Note.make 0 10).time + POOR_WINDOW < 51/5) :=
  (((c2_check_missed_iff (Note.make 0 10) (51/5)).1 rfl rfl).1)

/-- C3 counterexample: under the configured windows
(`GOOD_WINDOW = 0.13`, `POOR_WINDOW = 0.20`), a press at `t = 10.20` on a
pending note at time 10 returns the `poor` judgment and resolves the note
as hit, and `check_missed 10.20` returns false — contrary to the claimed
"no judgment, then missed". -/
theorem c3_counterexample :
    ((Note.make 0 10).try_hit (51/5)).1 = some Judgment.poor ∧
    ((Note.make 0 10).try_hit (51/5)).2.hit = true ∧
    ((Note.make 0 10).check_missed (51/5)).1 = false := by
  refine ⟨?_, ?_, ?_⟩ <;>
    norm_num [Note.try_hit, Note.check_missed, Note.make,
      PERFECT_WINDOW, GOOD_WINDOW, POOR_WINDOW, abs]

/-- C3 amended: for a pending note at time 10, a press at 10.03 is
`perfect`, a press at 10.10 is `good`, and a press at 10.20 is `poor`
(the note becomes hit); `check_missed 10.20` on the pending note returns
false, since 10.20 is not strictly past `time + POOR_WINDOW`. -/
theorem c3_amended :
    ((Note.make 0 10).try_hit (1003/100)).1 = some Judgment.perfect ∧
    ((Note.make 0 10).try_hit (101/10)).1 = some Judgment.good ∧
    ((Note.make 0 10).try_hit (51/5)).1 = some Judgment.poor ∧
    ((Note.make 0 10).try_hit (51/5)).2.hit = true ∧
    ((Note.make 0 10).try_hit (51/5)).2.missed = false ∧
    (Note.make 0 10).check_missed (51/5) = (false, Note.make 0 10) := by
  refine ⟨?_, ?_, ?_, ?_, ?_, ?_⟩ <;>
    norm_num [Note.try_hit, Note.check_missed, Note.make,
      PERFECT_WINDOW, GOOD_WINDOW, POOR_WINDOW, abs]

/-- C6: `try_hit` on an already-hit note returns no judgment and leaves
the note unchanged, and feeding that result through the press handler's
registration step leaves every score/combo field unchanged. -/
theorem c6_try_hit_idempotent (n : Note) (ct : ℚ) (h : n.hit = true) :
    n.try_hit ct = (none, n) ∧
    ∀ s : ScoreState, apply_judgment s (n.try_hit ct).1 = s := by
  have he : n.try_hit ct = (none, n) := by simp [Note.try_hit, h]
  exact ⟨he, fun s => by rw [he]; rfl⟩

/-- C6 witness: a concrete hit note. -/
theorem c6_witness :
    (⟨0, 10, true, false, some Judgment.perfect⟩ : Note).try_hit 11 =
      (none, ⟨0, 10, true, false, some Judgment.perfect⟩) ∧
    ∀ s : ScoreState,
      apply_judgment s ((⟨0, 10, true, false, some Judgment.perfect⟩ : Note).try_hit 11).1 = s :=
  c6_try_hit_idempotent ⟨0, 10, true, false, some Judgment.perfect⟩ 11 rfl

/-- C7: starting from a pending note, any interleaving of `try_hit` and
`check_missed` calls preserves the invariant (never both hit and missed,
judgment unset exactly when unresolved), and once a prefix of calls has
resolved the note, the remaining calls change nothing. -/
theorem c7_lifecycle (lane : ℕ) (time : ℚ) (ops pre suf : List NoteOp) :
    ((Note.make lane time).run_ops ops).inv ∧
    (((Note.make lane time).run_ops pre).hit = true ∨
        ((Note.make lane time).run_ops pre).missed = true →
      (Note.make lane time).run_ops (pre ++ suf) =
        (Note.make lane time).run_ops pre) := by
  refine ⟨run_ops_inv _ ops (make_inv lane time), fun h => ?_⟩
  rw [Note.run_ops, List.foldl_append]
  exact run_ops_frozen _ suf h


-- ------------------------------------------------------------------
-- Claim theorems: score/combo aggregation
-- ------------------------------------------------------------------

/-- Sanity: the multiplier local of `_register_hit` determines the score
increment. -/
theorem register_hit_score (s : ScoreState) (j : Judgment) :
    (register_hit s j).score = s.score + JUDGMENT_POINTS j * hit_multiplier s := rfl

/-- C4 counterexample: in a run of consecutive perfect hits from combo 0,
the multiplier `min(4, 1 + combo // 10)` computed at the 10th hit (combo
becomes 10) is already 2, not 1 as the claim asserts for each of the
first 10 hits. -/
theorem c4_counterexample :
    hit_multiplier (hitSeq 9) = 2 ∧ ¬hit_multiplier (hitSeq 9) = 1 := by decide

/-- C4 amended: over 12 consecutive hits from combo 0, the multiplier is
1 for hits 1 through 9 and 2 for hits 10 through 12; it first reaches 2
at the 10th hit (combo 10, `1 + 10 // 10 = 2`). -/
theorem c4_multiplier_schedule (k : ℕ) (h1 : 1 ≤ k) (h2 : k ≤ 12) :
    hit_multiplier (hitSeq (k - 1)) = if k ≤ 9 then 1 else 2 := by
  interval_cases k <;> decide

/-- C4 witness: at the 10th hit the multiplier is 2. -/
theorem c4_witness : hit_multiplier (hitSeq (10 - 1)) = if 10 ≤ 9 then 1 else 2 :=
  c4_multiplier_schedule 10 (by decide) (by decide)

/-- C5 counterexample: registering a `poor` hit increments `good_count`
(there is no poor-tier counter in the aggregator), contradicting the
claim that the poor-tier counter is the one incremented and no other
tier counter changes. -/
theorem c5_counterexample :
    (register_hit initScore Judgment.poor).good_count = initScore.good_count + 1 ∧
    (register_hit initScore Judgment.poor).perfect_count = initScore.perfect_count := by
  decide

/-- C5 amended: on a hit resolution, a `perfect` judgment increments
`perfect_count` by one and leaves `good_count` unchanged, while a `good`
or `poor` judgment increments `good_count` by one and leaves
`perfect_count` unchanged; `miss_count` never changes on a hit. -/
theorem c5_tier_counters (s : ScoreState) :
    (register_hit s Judgment.perfect).perfect_count = s.perfect_count + 1 ∧
    (register_hit s Judgment.perfect).good_count = s.good_count ∧
    (register_hit s Judgment.good).good_count = s.good_count + 1 ∧
    (register_hit s Judgment.good).perfect_count = s.perfect_count ∧
    (register_hit s Judgment.poor).good_count = s.good_count + 1 ∧
    (register_hit s Judgment.poor).perfect_count = s.perfect_count ∧
    (register_hit s Judgment.perfect).miss_count = s.miss_count ∧
    (register_hit s Judgment.good).miss_count = s.miss_count ∧
    (register_hit s Judgment.poor).miss_count = s.miss_count := by
  refine ⟨?_, ?_, ?_, ?_, ?_, ?_, ?_, ?_, ?_⟩ <;> simp [register_hit]

-- ------------------------------------------------------------------
-- Lane assignment (src/analyzer.py, analyze_music main loop)
-- ------------------------------------------------------------------

/-- One detected onset: its time and the summed CQT energy of each of the
`NUM_LANES` frequency bands at the onset's frame. -/
structure Onset where
  time : ℚ
  energy : Fin NUM_LANES → ℚ

/-- A produced chart note record, as in the dicts of `analyze_music`. -/
structure ChartNote where
  time : ℚ
  lane : Fin NUM_LANES
deriving DecidableEq

/-- Python's stable `sorted(range(NUM_LANES), key=..., reverse=True)`:
lanes in descending band energy, ties broken by the lower lane index. -/
def laneOrder (e : Fin NUM_LANES → ℚ) : List (Fin NUM_LANES) :=
  List.insertionSort (fun i j => e j < e i ∨ (e i = e j ∧ i.val ≤ j.val))
    (List.finRange NUM_LANES)

/-- The inner lane-selection loop: the first ranked lane whose last note
is at least `MIN_GAP_LANE` old. -/
def chooseLane (lastLane : Fin NUM_LANES → ℚ) (t : ℚ)
    (e : Fin NUM_LANES → ℚ) : Option (Fin NUM_LANES) :=
  (laneOrder e).find? fun l => decide (MIN_GAP_LANE ≤ t - lastLane l)

/-- The onset loop of `analyze_music`, with the running
`last_time_per_lane` / `last_any_time` trackers. -/
def assignLoop (lastLane : Fin NUM_LANES → ℚ) (lastAny : ℚ) :
    List Onset → List ChartNote
  | [] => []
  | o :: rest =>
    if o.time - lastAny < MIN_GAP_GLOBAL then assignLoop lastLane lastAny rest
    else
      match chooseLane lastLane o.time o.energy with
      | none => assignLoop lastLane lastAny rest
      | some l =>
        ⟨o.time, l⟩ :: assignLoop (Function.update lastLane l o.time) o.time rest

/-- Chart generation from the onset list, with the `-999.0` sentinels of
`analyze_music`. -/
def assignNotes (onsets : List Onset) : List ChartNote :=
  assignLoop (fun _ => -999) (-999) onsets

theorem chooseLane_gap (lastLane : Fin NUM_LANES → ℚ) (t : ℚ)
    (e : Fin NUM_LANES → ℚ) (l : Fin NUM_LANES)
    (h : chooseLane lastLane t e = some l) : lastLane l + MIN_GAP_LANE ≤ t := by
  have := List.find?_some h
  rw [decide_eq_true_iff] at this
  linarith

/-- Main invariant of the onset loop: every produced note respects the
global gap from `lastAny` and the per-lane gap from `lastLane`; the
produced notes are strictly time-ordered and chained at least
`MIN_GAP_GLOBAL` apart; and any two same-lane notes are at least
`MIN_GAP_LANE` apart. -/
theorem assignLoop_spec (onsets : List Onset) :
    ∀ (lastLane : Fin NUM_LANES → ℚ) (lastAny : ℚ),
    (∀ n ∈ assignLoop lastLane lastAny onsets,
      lastAny + MIN_GAP_GLOBAL ≤ n.time ∧ lastLane n.lane + MIN_GAP_LANE ≤ n.time) ∧
    List.Chain' (fun a b : ChartNote => a.time + MIN_GAP_GLOBAL ≤ b.time)
      (assignLoop lastLane lastAny onsets) ∧
    List.Pairwise (fun a b : ChartNote => a.time < b.time)
      (assignLoop lastLane lastAny onsets) ∧
    List.Pairwise (fun a b : ChartNote => a.lane = b.lane → a.time + MIN_GAP_LANE ≤ b.time)
      (assignLoop lastLane lastAny onsets) := by
  have gpos : (0 : ℚ) < MIN_GAP_GLOBAL := by norm_num [MIN_GAP_GLOBAL]
  have lpos : (0 : ℚ) < MIN_GAP_LANE := by norm_num [MIN_GAP_LANE]
  induction onsets with
  | nil => intro lastLane lastAny; simp [assignLoop]
  | cons o rest ih =>
    intro lastLane lastAny
    by_cases hskip : o.time - lastAny < MIN_GAP_GLOBAL
    · simp only [assignLoop, if_pos hskip]
      exact ih lastLane lastAny
    · have hglob : lastAny + MIN_GAP_GLOBAL ≤ o.time := by
        have := not_lt.mp hskip
        linarith
      rcases hcl : chooseLane lastLane o.time o.energy with _ | l
      · simp only [assignLoop, if_neg hskip, hcl]
        exact ih lastLane lastAny
      · have hlane : lastLane l + MIN_GAP_LANE ≤ o.time := chooseLane_gap _ _ _ _ hcl
        obtain ⟨ihA, ihC, ihS, ihP⟩ := ih (Function.update lastLane l o.time) o.time
        simp only [assignLoop, if_neg hskip, hcl]
        refine ⟨?_, ?_, ?_, ?_⟩
        · intro n hn
          rcases List.mem_cons.mp hn with rfl | hn
          · exact ⟨hglob, hlane⟩
          · obtain ⟨h1, h2⟩ := ihA n hn
            refine ⟨by linarith, ?_⟩
            by_cases hnl : n.lane = l
            · rw [hnl, Function.update_same] at h2
              rw [hnl]
              linarith
            · rwa [Function.update_noteq hnl] at h2
        · rw [List.chain'_cons']
          refine ⟨fun b hb => ?_, ihC⟩
          exact (ihA b (List.mem_of_mem_head? hb)).1
        · rw [List.pairwise_cons]
          refine ⟨fun b hb => ?_, ihS⟩
          have := (ihA b hb).1
          show o.time < b.time
          linarith
        · rw [List.pairwise_cons]
          refine ⟨fun b hb hl => ?_, ihP⟩
          have h2 := (ihA b hb).2
          show o.time + MIN_GAP_LANE ≤ b.time
          rw [← hl, Function.update_same] at h2
          exact h2

/-- C1: every chart produced by the lane-assignment pipeline, whatever
the input onset list, has strictly time-ordered notes, consecutive notes
(any lanes) at least `MIN_GAP_GLOBAL` = 0.08 s apart, and any two notes
of the same lane at least `MIN_GAP_LANE` = 0.25 s apart. -/
theorem c1_chart_spacing (onsets : List Onset) :
    List.Pairwise (fun a b : ChartNote => a.time < b.time) (assignNotes onsets) ∧
    List.Chain' (fun a b : ChartNote => a.time + MIN_GAP_GLOBAL ≤ b.time)
      (assignNotes onsets) ∧
    List.Pairwise (fun a b : ChartNote => a.lane = b.lane → a.time + MIN_GAP_LANE ≤ b.time)
      (assignNotes onsets) := by
  obtain ⟨-, hC, hS, hP⟩ := assignLoop_spec onsets (fun _ => -999) (-999)
  exact ⟨hS, hC, hP⟩

-- ------------------------------------------------------------------
-- Analysis cache path (src/analyzer.py lines 74-79, src/game.py _load)
-- ------------------------------------------------------------------

/-- The (notes, tempo, duration) triple `analyze_music` returns and the
cache file stores. -/
structure Chart where
  notes : List ChartNote
  tempo : ℚ
  duration : ℚ
deriving DecidableEq

/-- State of the cache file for the derived key: missing, or existing
with contents that either parse to a chart or raise on `json.load`. -/
inductive CacheEntry
  | absent
  | present (contents : Except String Chart)

/-- The cache branch of `analyze_music`: when the cache file exists its
contents are loaded unconditionally and a parse failure propagates as an
exception; only a missing file falls through to the full analysis
(itself fallible). -/
def analyze_music_cached (cache : CacheEntry)
    (analysis : Except String Chart) : Except String Chart :=
  match cache with
  | .absent => analysis
  | .present (.ok c) => Except.ok c
  | .present (.error e) => Except.error e

/-- Scene state reached by `GameScene._load`. -/
inductive LoadOutcome
  | countdown (chart : Chart)
  | errorDisplay (msg : String)
deriving DecidableEq

/-- `GameScene._load`: any exception from `analyze_music` is caught and
the scene shows the error state with the message truncated to 80
characters. -/
def load_step (r : Except String Chart) : LoadOutcome :=
  match r with
  | .ok c => .countdown c
  | .error e => .errorDisplay (e.take 80)

set_option maxRecDepth 4000 in
/-- C8 counterexample: with a present-but-corrupt cache entry, the
analysis does not fall back to re-analysis — it propagates the parse
error, and the game transitions to the error display state instead of
loading the freshly analysed chart. -/
theorem c8_counterexample :
    analyze_music_cached (CacheEntry.present (Except.error "bad"))
        (Except.ok ⟨[], 120, 60⟩) ≠ Except.ok ⟨[], 120, 60⟩ ∧
    load_step (analyze_music_cached (CacheEntry.present (Except.error "bad"))
        (Except.ok ⟨[], 120, 60⟩)) = LoadOutcome.errorDisplay "bad" := by
  constructor
  · intro h
    exact Except.noConfusion h
  · rfl

/-- C8 amended: a corrupt cache entry is not treated as a cache miss —
the parse error propagates out of `analyze_music` regardless of what a
fresh analysis would produce, and `_load` catches it and surfaces the
error display state (truncated message) rather than re-analysing. -/
theorem c8_corrupt_cache (e : String) (analysis : Except String Chart) :
    analyze_music_cached (CacheEntry.present (Except.error e)) analysis =
      Except.error e ∧
    load_step (analyze_music_cached (CacheEntry.present (Except.error e)) analysis) =
      LoadOutcome.errorDisplay (e.take 80) :=
  ⟨rfl, rfl⟩

-- ------------------------------------------------------------------
-- Lane presses (src/game.py, GameScene._press_lane)
-- ------------------------------------------------------------------

/-- Python list-index assignment `lst[i] = v`: negative indices wrap from
the end, and an index out of `[-len, len)` raises `IndexError` (`none`). -/
def listSet {α : Type} (l : List α) (i : Int) (v : α) : Option (List α) :=
  if 0 ≤ i then
    if i < (l.length : Int) then some (l.set i.toNat v) else none
  else
    if 0 ≤ (l.length : Int) + i then some (l.set ((l.length : Int) + i).toNat v)
    else none

/-- The candidate filter of the `_press_lane` search loop: an active note
of the pressed lane within the outer (`POOR_WINDOW`) tolerance. -/
def isCand (ct : ℚ) (lane : Int) (n : Note) : Prop :=
  (n.lane : Int) = lane ∧ n.is_active = true ∧ |ct - n.time| ≤ POOR_WINDOW

instance (ct : ℚ) (lane : Int) (n : Note) : Decidable (isCand ct lane n) := by
  unfold isCand; infer_instance

/-- The running `best_diff` comparison of `_press_lane`; `none` is the
initial `float('inf')`, beaten by any difference. -/
def betterDiff (d : ℚ) (best : Option (ℕ × ℚ)) : Bool :=
  match best with
  | none => true
  | some p => decide (d < p.2)

/-- One iteration of the `_press_lane` search loop over the note at
position `i`. -/
def candStep (ct : ℚ) (lane : Int) (n : Note) (i : ℕ)
    (best : Option (ℕ × ℚ)) : Option (ℕ × ℚ) :=
  if (n.lane : Int) = lane ∧ n.is_active = true then
    if |ct - n.time| ≤ POOR_WINDOW ∧ betterDiff |ct - n.time| best = true then
      some (i, |ct - n.time|)
    else best
  else best

/-- The `_press_lane` search loop, tracking the position and timing
difference of the best note so far. -/
def findBestAux (ct : ℚ) (lane : Int) :
    List Note → ℕ → Option (ℕ × ℚ) → Option (ℕ × ℚ)
  | [], _, best => best
  | n :: rest, i, best => findBestAux ct lane rest (i + 1) (candStep ct lane n i best)

/-- Position and timing difference of the note `_press_lane` selects. -/
def findBest (ct : ℚ) (lane : Int) (notes : List Note) : Option (ℕ × ℚ) :=
  findBestAux ct lane notes 0 none

/-- The per-run state `_press_lane` reads and writes. -/
structure GameState where
  key_pressed : List Bool
  key_flash : List ℕ
  active : List Note
  scoreState : ScoreState
  current_time : ℚ

/-- `GameScene._press_lane`: mark the key pressed and flashing (Python
raises `IndexError` here for a lane outside the list bounds), search the
active set for the closest in-window pending note of that lane, and if
one exists try to hit it, registering the judgment if one is returned. -/
def press_lane (st : GameState) (lane : Int) : Option GameState :=
  match listSet st.key_pressed lane true with
  | none => none
  | some kp =>
    match listSet st.key_flash lane 12 with
    | none => none
    | some kf =>
      match findBest st.current_time lane st.active with
      | none => some { st with key_pressed := kp, key_flash := kf }
      | some (i, _) =>
        match st.active[i]? with
        | none => some { st with key_pressed := kp, key_flash := kf }
        | some n =>
          let r := n.try_hit st.current_time
          some { st with
                  key_pressed := kp
                  key_flash := kf
                  active := st.active.set i r.2
                  scoreState := apply_judgment st.scoreState r.1 }

theorem candStep_eq_or (ct : ℚ) (lane : Int) (n : Note) (i : ℕ)
    (best : Option (ℕ × ℚ)) :
    candStep ct lane n i best = best ∨
    (candStep ct lane n i best = some (i, |ct - n.time|) ∧ isCand ct lane n) := by
  unfold candStep
  split_ifs with h1 h2
  · exact Or.inr ⟨rfl, h1.1, h1.2, h2.1⟩
  · exact Or.inl rfl
  · exact Or.inl rfl

theorem candStep_none (ct : ℚ) (lane : Int) (n : Note) (i : ℕ)
    (best : Option (ℕ × ℚ)) (h : candStep ct lane n i best = none) :
    best = none ∧ ¬isCand ct lane n := by
  by_cases h1 : (n.lane : Int) = lane ∧ n.is_active = true
  · by_cases h2 : |ct - n.time| ≤ POOR_WINDOW ∧ betterDiff |ct - n.time| best = true
    · rw [candStep, if_pos h1, if_pos h2] at h
      exact Option.noConfusion h
    · rw [candStep, if_pos h1, if_neg h2] at h
      subst h
      exact ⟨rfl, fun hc => h2 ⟨hc.2.2, rfl⟩⟩
  · rw [candStep, if_neg h1] at h
    exact ⟨h, fun hc => h1 ⟨hc.1, hc.2.1⟩⟩

theorem candStep_min (ct : ℚ) (lane : Int) (n : Note) (i : ℕ)
    (best : Option (ℕ × ℚ)) (j : ℕ) (d : ℚ)
    (h : candStep ct lane n i best = some (j, d)) :
    (isCand ct lane n → d ≤ |ct - n.time|) ∧
    (∀ j0 d0, best = some (j0, d0) → d ≤ d0) := by
  by_cases h1 : (n.lane : Int) = lane ∧ n.is_active = true
  · by_cases h2 : |ct - n.time| ≤ POOR_WINDOW ∧ betterDiff |ct - n.time| best = true
    · rw [candStep, if_pos h1, if_pos h2] at h
      simp only [Option.some.injEq, Prod.mk.injEq] at h
      obtain ⟨-, hd⟩ := h
      refine ⟨fun _ => hd.ge, fun j0 d0 hb => ?_⟩
      have hbd := h2.2
      rw [hb] at hbd
      simp only [betterDiff, decide_eq_true_eq] at hbd
      exact le_of_lt (hd ▸ hbd)
    · rw [candStep, if_pos h1, if_neg h2] at h
      constructor
      · intro hc
        have hnb : ¬(|ct - n.time| < d) := by
          intro hlt
          exact h2 ⟨hc.2.2, by rw [h]; simp [betterDiff, hlt]⟩
        exact not_lt.mp hnb
      · intro j0 d0 hb
        rw [h] at hb
        simp only [Option.some.injEq, Prod.mk.injEq] at hb
        exact hb.2.le
  · rw [candStep, if_neg h1] at h
    refine ⟨fun hc => absurd ⟨hc.1, hc.2.1⟩ h1, fun j0 d0 hb => ?_⟩
    rw [h] at hb
    simp only [Option.some.injEq, Prod.mk.injEq] at hb
    exact hb.2.le

theorem findBestAux_skip (ct : ℚ) (lane : Int) (l : List Note) :
    ∀ (i : ℕ) (best : Option (ℕ × ℚ)), (∀ n ∈ l, ¬isCand ct lane n) →
      findBestAux ct lane l i best = best := by
  induction l with
  | nil => intro i best _; rfl
  | cons n rest ih =>
    intro i best hnc
    have hstep : candStep ct lane n i best = best := by
      rcases candStep_eq_or ct lane n i best with h | ⟨-, hc⟩
      · exact h
      · exact absurd hc (hnc n (List.mem_cons_self n rest))
    show findBestAux ct lane rest (i + 1) (candStep ct lane n i best) = best
    rw [hstep]
    exact ih (i + 1) best fun m hm => hnc m (List.mem_cons_of_mem n hm)

theorem findBestAux_none (ct : ℚ) (lane : Int) (l : List Note) :
    ∀ (i : ℕ) (best : Option (ℕ × ℚ)), findBestAux ct lane l i best = none →
      best = none ∧ ∀ n ∈ l, ¬isCand ct lane n := by
  induction l with
  | nil => intro i best h; exact ⟨h, by simp⟩
  | cons n rest ih =>
    intro i best h
    obtain ⟨hstep, hrest⟩ := ih (i + 1) (candStep ct lane n i best) h
    obtain ⟨hb, hnc⟩ := candStep_none ct lane n i best hstep
    refine ⟨hb, fun m hm => ?_⟩
    rcases List.mem_cons.mp hm with rfl | hm
    · exact hnc
    · exact hrest m hm

theorem findBestAux_min (ct : ℚ) (lane : Int) (l : List Note) :
    ∀ (i : ℕ) (best : Option (ℕ × ℚ)) (j : ℕ) (d : ℚ),
      findBestAux ct lane l i best = some (j, d) →
      (∀ n ∈ l, isCand ct lane n → d ≤ |ct - n.time|) ∧
      (∀ j0 d0, best = some (j0, d0) → d ≤ d0) := by
  induction l with
  | nil =>
    intro i best j d h
    simp only [findBestAux] at h
    refine ⟨by simp, fun j0 d0 hb => ?_⟩
    rw [hb] at h
    simp only [Option.some.injEq, Prod.mk.injEq] at h
    exact h.2.ge
  | cons n rest ih =>
    intro i best j d h
    obtain ⟨ihRest, ihBest⟩ := ih (i + 1) (candStep ct lane n i best) j d h
    rcases hcs : candStep ct lane n i best with _ | ⟨j1, d1⟩
    · obtain ⟨hb, hnc⟩ := candStep_none ct lane n i best hcs
      refine ⟨fun m hm hc => ?_, fun j0 d0 hb0 => by rw [hb0] at hb; simp_all⟩
      rcases List.mem_cons.mp hm with rfl | hm
      · exact absurd hc hnc
      · exact ihRest m hm hc
    · have hd1 := ihBest j1 d1 hcs
      obtain ⟨hhead, hbest⟩ := candStep_min ct lane n i best j1 d1 hcs
      refine ⟨fun m hm hc => ?_, fun j0 d0 hb0 => le_trans hd1 (hbest j0 d0 hb0)⟩
      rcases List.mem_cons.mp hm with rfl | hm
      · exact le_trans hd1 (hhead hc)
      · exact ihRest m hm hc

theorem findBestAux_loc (ct : ℚ) (lane : Int) (l : List Note) :
    ∀ (i : ℕ) (best : Option (ℕ × ℚ)) (j : ℕ) (d : ℚ),
      findBestAux ct lane l i best = some (j, d) →
      best = some (j, d) ∨
      (i ≤ j ∧ ∃ h : j - i < l.length,
        isCand ct lane (l.get ⟨j - i, h⟩) ∧ d = |ct - (l.get ⟨j - i, h⟩).time|) := by
  induction l with
  | nil => intro i best j d h; exact Or.inl h
  | cons n rest ih =>
    intro i best j d h
    rcases ih (i + 1) (candStep ct lane n i best) j d h with hstep | ⟨hij, hlt, hc, hd⟩
    · rcases candStep_eq_or ct lane n i best with he | ⟨he, hcn⟩
      · exact Or.inl (he ▸ hstep)
      · rw [he] at hstep
        simp only [Option.some.injEq, Prod.mk.injEq] at hstep
        obtain ⟨rfl, rfl⟩ := hstep
        refine Or.inr ⟨le_refl i, ?_⟩
        simp only [Nat.sub_self]
        exact ⟨Nat.succ_pos _, hcn, rfl⟩
    · refine Or.inr ⟨le_trans (Nat.le_succ i) hij, ?_⟩
      have hsub : j - i = (j - (i + 1)) + 1 := by omega
      have hlt2 : j - i < (n :: rest).length := by
        simp only [List.length_cons]
        omega
      refine ⟨hlt2, ?_⟩
      have hget : (n :: rest).get ⟨j - i, hlt2⟩ = rest.get ⟨j - (i + 1), hlt⟩ := by
        simp only [hsub]
        rfl
      rw [hget]
      exact ⟨hc, hd⟩

theorem findBest_none (ct : ℚ) (lane : Int) (notes : List Note)
    (h : findBest ct lane notes = none) : ∀ n ∈ notes, ¬isCand ct lane n :=
  (findBestAux_none ct lane notes 0 none h).2

theorem findBest_some (ct : ℚ) (lane : Int) (notes : List Note) (j : ℕ) (d : ℚ)
    (h : findBest ct lane notes = some (j, d)) :
    ∃ hj : j < notes.length,
      isCand ct lane (notes.get ⟨j, hj⟩) ∧
      d = |ct - (notes.get ⟨j, hj⟩).time| ∧
      ∀ n ∈ notes, isCand ct lane n → d ≤ |ct - n.time| := by
  rcases findBestAux_loc ct lane notes 0 none j d h with hb | ⟨-, hlt, hc, hd⟩
  · exact Option.noConfusion hb
  · simp only [Nat.sub_zero] at hc hd
    have hj : j < notes.length := by simpa using hlt
    exact ⟨hj, hc, hd, (findBestAux_min ct lane notes 0 none j d h).1⟩

theorem listSet_inbounds {α : Type} (l : List α) (i : Int) (v : α)
    (h0 : 0 ≤ i) (h1 : i < (l.length : Int)) :
    listSet l i v = some (l.set i.toNat v) := by
  rw [listSet, if_pos h0, if_pos h1]

/-- A game state as built by `GameScene.__init__`: `NUM_LANES`-sized key
lists and no active notes. -/
def demoState : GameState :=
  { key_pressed := List.replicate NUM_LANES false
    key_flash := List.replicate NUM_LANES 0
    active := []
    scoreState := initScore
    current_time := 0 }

/-- C9 (code bug evaluation): `_press_lane` with lane index 4 — reachable
from `handle_event`, since `_LANE_KEYS` maps five keys while the key
lists have `NUM_LANES = 4` entries — fails at `self._key_pressed[lane] =
True` with an index error (modelled as `none`) instead of being a
defensive no-op; likewise lane 5. -/
theorem c9_out_of_range_press :
    press_lane demoState 4 = none ∧ press_lane demoState 5 = none := by
  constructor <;> rfl

/-- C10: for a valid lane press, when no active pending note of that lane
is within the outer window nothing is judged and the active set and score
are unchanged; when the search finds a note it is an in-window pending
note of that lane at the found position, its timing difference is minimal
among all candidates, and exactly that note receives the `try_hit` call
(the active set changes only at that position, the score only through the
returned judgment); and a candidate always makes the search succeed. -/
theorem c10_press_selects_closest (st : GameState) (lane : Int)
    (hkp : st.key_pressed.length = NUM_LANES)
    (hkf : st.key_flash.length = NUM_LANES)
    (h0 : 0 ≤ lane) (h1 : lane < (NUM_LANES : Int)) :
    ((∀ n ∈ st.active, ¬isCand st.current_time lane n) →
      ∃ st2, press_lane st lane = some st2 ∧ st2.active = st.active ∧
        st2.scoreState = st.scoreState) ∧
    (∀ j d, findBest st.current_time lane st.active = some (j, d) →
      ∃ hj : j < st.active.length,
        isCand st.current_time lane (st.active.get ⟨j, hj⟩) ∧
        (∀ n ∈ st.active, isCand st.current_time lane n →
          |st.current_time - (st.active.get ⟨j, hj⟩).time| ≤
            |st.current_time - n.time|) ∧
        press_lane st lane = some { st with
          key_pressed := st.key_pressed.set lane.toNat true
          key_flash := st.key_flash.set lane.toNat 12
          active := st.active.set j
            ((st.active.get ⟨j, hj⟩).try_hit st.current_time).2
          scoreState := apply_judgment st.scoreState
            ((st.active.get ⟨j, hj⟩).try_hit st.current_time).1 }) ∧
    ((∃ n ∈ st.active, isCand st.current_time lane n) →
      findBest st.current_time lane st.active ≠ none) := by
  have e1 : listSet st.key_pressed lane true =
      some (st.key_pressed.set lane.toNat true) :=
    listSet_inbounds _ _ _ h0 (by rw [hkp]; exact h1)
  have e2 : listSet st.key_flash lane 12 =
      some (st.key_flash.set lane.toNat 12) :=
    listSet_inbounds _ _ _ h0 (by rw [hkf]; exact h1)
  refine ⟨?_, ?_, ?_⟩
  · intro hnc
    have hfb : findBest st.current_time lane st.active = none :=
      findBestAux_skip st.current_time lane st.active 0 none hnc
    refine ⟨{ st with
        key_pressed := st.key_pressed.set lane.toNat true
        key_flash := st.key_flash.set lane.toNat 12 }, ?_, rfl, rfl⟩
    simp only [press_lane, e1, e2, hfb]
  · intro j d hfb
    obtain ⟨hj, hc, hd, hmin⟩ := findBest_some _ _ _ _ _ hfb
    refine ⟨hj, hc, ?_, ?_⟩
    · intro n hn hcn
      rw [← hd]
      exact hmin n hn hcn
    · have hget : st.active[j]? = some (st.active.get ⟨j, hj⟩) := by
        rw [List.getElem?_eq_getElem hj, List.get_eq_getElem]
      simp only [press_lane, e1, e2, hfb, hget]
  · rintro ⟨n, hn, hcn⟩ hnone
    exact (findBest_none _ _ _ hnone n hn) hcn

/-- A playing state with a single pending note of lane 0 at time 10 and
the clock at 10. -/
def demoPress : GameState :=
  { key_pressed := [false, false, false, false]
    key_flash := [0, 0, 0, 0]
    active := [Note.make 0 10]
    scoreState := initScore
    current_time := 10 }

/-- C10 witness: in `demoPress`, lane 0 has a candidate note, so the
press search succeeds. -/
theorem c10_witness :
    findBest demoPress.current_time 0 demoPress.active ≠ none :=
  (c10_press_selects_closest demoPress 0 rfl rfl (by norm_num)
      (by norm_num [NUM_LANES])).2.2
    ⟨Note.make 0 10, by simp [demoPress],
      by norm_num [demoPress, isCand, Note.make, Note.is_active, POOR_WINDOW]⟩

/-- C7 witness: a note hit at its exact time satisfies the invariant, and
a later miss check changes nothing. -/
theorem c7_witness :
    ((Note.make 0 10).run_ops [NoteOp.press 10]).inv ∧
    (Note.make 0 10).run_ops ([NoteOp.press 10] ++ [NoteOp.tick 20]) =
      (Note.make 0 10).run_ops [NoteOp.press 10] :=
  ⟨(c7_lifecycle 0 10 [NoteOp.press 10] [NoteOp.press 10] [NoteOp.tick 20]).1,
   (c7_lifecycle 0 10 [NoteOp.press 10] [NoteOp.press 10] [NoteOp.tick 20]).2
     (Or.inl (by norm_num [Note.run_ops, Note.apply_op, Note.try_hit,
       Note.make, PERFECT_WINDOW, abs]))⟩
